import Mathlib

/-!
Verification of the redis-dump-go core pipeline (`redisdump/redisdump.go`)
against its natural-language specification.

The Go source is shallowly embedded:
- command builders become pure Lean functions on `List String`
  (Go `[]string`); the hash builder takes the iteration order of the Go
  map as an association list, and the TTL builder takes the wall-clock
  reading (`time.Now().Unix()`) as an explicit `now : Int` argument;
- the RESP wire serializer and its request parser work on `List Nat`
  (raw bytes, mirroring Go strings being byte sequences, so that the
  length prefix is the raw byte count);
- the stateful key loop `dumpKeys` is embedded with explicit state
  passing: the mutable `redisCmd` variable that persists across loop
  iterations is threaded through the recursion, and the store is a map
  from key to the results of each query the loop can issue;
- fallible store operations return `Except`; the keyspace parser, whose
  Go body can hit a runtime fault (slicing with the -1 returned by
  `strings.IndexAny` when a line has no colon), returns an `Option`
  whose `none` models that fault.
-/

namespace RedisDump

/-! ## Command builders (redisdump.go lines 15-61) -/

/-- Go `min` (redisdump.go line 15), on the natural numbers used as
slice indices. -/
def goMin (a b : Nat) : Nat :=
  if a ≤ b then a else b

/-- `ttlToRedisCmd` (line 22).  The Go body reads the wall clock via
`time.Now().Unix()`; that reading is the explicit argument `now`. -/
def ttlToRedisCmd (now : Int) (k : String) (val : Int) : List String :=
  ["EXPIREAT", k, toString (now + val)]

/-- `stringToRedisCmd` (line 26). -/
def stringToRedisCmd (k val : String) : List String :=
  ["SET", k, val]

/-- `hashToRedisCmd` (line 30).  The Go `map[string]string` is embedded
as the association list in the order the `range` loop visits it. -/
def hashToRedisCmd (k : String) (val : List (String × String)) : List String :=
  val.foldl (fun cmd p => cmd ++ [p.1, p.2]) ["HSET", k]

/-- `setToRedisCmd` (line 38). -/
def setToRedisCmd (k : String) (val : List String) : List String :=
  ["SADD", k] ++ val

/-- `listToRedisCmd` (line 43). -/
def listToRedisCmd (k : String) (val : List String) : List String :=
  ["RPUSH", k] ++ val

/-- The loop body of `zsetToRedisCmd` (lines 52-59): `i` is the loop
index, `key` the mutable `key` variable (zero value `""` initially);
at even `i` the element is remembered as the member, at odd `i` the
pair `(score, member)` is appended. -/
def zsetLoop : List String → Nat → String → List String
  | [], _, _ => []
  | v :: rest, i, key =>
    if i % 2 = 0 then zsetLoop rest (i + 1) v
    else v :: key :: zsetLoop rest (i + 1) key

/-- `zsetToRedisCmd` (line 48). -/
def zsetToRedisCmd (k : String) (val : List String) : List String :=
  "ZADD" :: k :: zsetLoop val 0 ""

/-! ## Serializers (lines 63-77) -/

/-- `RedisCmdSerializer` (line 75): `strings.Join(cmd, " ")`. -/
def RedisCmdSerializer (cmd : List String) : String :=
  " ".intercalate cmd

/-- Decimal rendering of a natural number as ASCII bytes
(Go `strconv.Itoa` on the non-negative lengths used by the
serializer): most significant digit first, `0` rendered as `"0"`. -/
def natToDec (n : Nat) : List Nat :=
  if n = 0 then [48] else ((Nat.digits 10 n).map (fun d => d + 48)).reverse

/-- `RESPSerializer` (line 64), over raw bytes (`List Nat`): the Go
loop appends `"$" + itoa(len(arg)) + "\r\n" + arg + "\r\n"` for each
argument after the `"*" + itoa(len(cmd)) + "\r\n"` header.  Byte
values: `*` = 42, `$` = 36, CR = 13, LF = 10. -/
def RESPSerializer (cmd : List (List Nat)) : List Nat :=
  cmd.foldl
    (fun s arg => s ++ (36 :: natToDec arg.length ++ [13, 10]) ++ arg ++ [13, 10])
    (42 :: natToDec cmd.length ++ [13, 10])

/-! ## A RESP request parser (spec section 8, round-trip property).
This is the spec side of the round-trip claim: a parser for the
length-prefixed array encoding. -/

/-- ASCII decimal digit test on a byte. -/
def isDigitByte (b : Nat) : Bool :=
  48 ≤ b && b ≤ 57

/-- Value of a most-significant-first ASCII digit string. -/
def decValue (l : List Nat) : Nat :=
  l.foldl (fun acc d => acc * 10 + (d - 48)) 0

/-- Require the next byte to be `b` and consume it. -/
def expectByte (b : Nat) (l : List Nat) : Option (List Nat) :=
  match l with
  | x :: r => if x = b then some r else none
  | [] => none

/-- Read a decimal number terminated by CRLF. -/
def readNum (l : List Nat) : Option (Nat × List Nat) :=
  let ds := l.takeWhile isDigitByte
  if ds.isEmpty then none
  else
    ((expectByte 13 (l.dropWhile isDigitByte)).bind (expectByte 10)).map
      (fun r => (decValue ds, r))

/-- Read one bulk string: a dollar sign, a decimal byte count, CRLF,
that many raw bytes, CRLF. -/
def readBulk (l : List Nat) : Option (List Nat × List Nat) :=
  (expectByte 36 l).bind fun r =>
    (readNum r).bind fun p =>
      if p.1 ≤ p.2.length then
        ((expectByte 13 (p.2.drop p.1)).bind (expectByte 10)).map
          (fun r3 => (p.2.take p.1, r3))
      else none

/-- Read `n` bulk strings in sequence. -/
def readBulks : Nat → List Nat → Option (List (List Nat) × List Nat)
  | 0, l => some ([], l)
  | n + 1, l =>
    (readBulk l).bind fun p =>
      (readBulks n p.2).map fun q => (p.1 :: q.1, q.2)

/-- Parse a whole buffer as one RESP request array (a star, a decimal
argument count, CRLF, then that many bulk strings), requiring the
buffer to be consumed exactly. -/
def parseRESPRequest (l : List Nat) : Option (List (List Nat)) :=
  (expectByte 42 l).bind fun r =>
    (readNum r).bind fun p =>
      (readBulks p.1 p.2).bind fun q =>
        if q.2 = [] then some q.1 else none

/-- The encoding of one bulk string, as produced by the body of the
serializer loop (line 68-69). -/
def encBulk (arg : List Nat) : List Nat :=
  36 :: natToDec arg.length ++ [13, 10] ++ arg ++ [13, 10]

/-! ## Helper lemmas -/

theorem foldl_append_join {α β : Type} (f : α → List β) :
    ∀ (l : List α) (init : List β),
      l.foldl (fun s a => s ++ f a) init = init ++ (l.map f).flatten := by
  intro l
  induction l with
  | nil => intro init; simp
  | cons a rest ih => intro init; simp [List.foldl_cons, ih]

/-- Every byte of `natToDec n` is an ASCII digit. -/
theorem natToDec_digits (n : Nat) : ∀ d ∈ natToDec n, isDigitByte d = true := by
  intro d hd
  unfold natToDec at hd
  split at hd
  · simp at hd
    simp [hd, isDigitByte]
  · simp only [List.mem_reverse, List.mem_map] at hd
    obtain ⟨d0, hd0, rfl⟩ := hd
    have : d0 < 10 := Nat.digits_lt_base (by norm_num) hd0
    simp [isDigitByte]
    omega

theorem decValue_natToDec (n : Nat) : decValue (natToDec n) = n := by
  unfold natToDec
  split
  · simp [decValue]
    omega
  · rw [← List.map_reverse]
    have key : ∀ L : List Nat, decValue (L.reverse.map (fun d => d + 48)) =
        Nat.ofDigits 10 L := by
      intro L
      unfold decValue
      rw [List.map_reverse, List.foldl_reverse]
      induction L with
      | nil => simp [Nat.ofDigits_nil]
      | cons d L ih =>
        simp only [List.map_cons, List.foldr_cons, ih, Nat.ofDigits_cons]
        omega
    rw [key]
    exact Nat.ofDigits_digits 10 n

theorem natToDec_ne_nil (n : Nat) : natToDec n ≠ [] := by
  unfold natToDec
  split
  · simp
  · simp [Nat.digits_ne_nil_iff_ne_zero, *]

/-- Splitting `takeWhile`/`dropWhile` around an all-digit block
followed by a CR byte. -/
theorem digits_block_split (ds r : List Nat) (h : ∀ d ∈ ds, isDigitByte d = true) :
    (ds ++ 13 :: r).takeWhile isDigitByte = ds ∧
    (ds ++ 13 :: r).dropWhile isDigitByte = 13 :: r := by
  induction ds with
  | nil => simp [List.takeWhile, List.dropWhile, isDigitByte]
  | cons d ds ih =>
    have hd : isDigitByte d = true := h d (by simp)
    have := ih (fun x hx => h x (by simp [hx]))
    simp [List.takeWhile_cons, List.dropWhile_cons, hd, this.1, this.2]

theorem readNum_natToDec (n : Nat) (r : List Nat) :
    readNum (natToDec n ++ 13 :: 10 :: r) = some (n, r) := by
  have hsplit := digits_block_split (natToDec n) (10 :: r) (natToDec_digits n)
  unfold readNum
  simp only [hsplit.1, hsplit.2]
  have : (natToDec n).isEmpty = false := by
    cases hne : natToDec n with
    | nil => exact absurd hne (natToDec_ne_nil n)
    | cons a l => simp
  simp [this, expectByte, decValue_natToDec]

theorem expectByte_cons (b x : Nat) (r : List Nat) :
    expectByte b (x :: r) = if x = b then some r else none := rfl

theorem readBulk_encBulk (a rest : List Nat) :
    readBulk (encBulk a ++ rest) = some (a, rest) := by
  have harr : encBulk a ++ rest
      = 36 :: (natToDec a.length ++ 13 :: 10 :: (a ++ 13 :: 10 :: rest)) := by
    simp [encBulk]
  rw [harr]
  unfold readBulk
  simp [readNum_natToDec, List.drop_left, List.take_left, expectByte_cons]

theorem readBulks_encBulk (cmd : List (List Nat)) :
    ∀ rest, readBulks cmd.length ((cmd.map encBulk).flatten ++ rest)
      = some (cmd, rest) := by
  induction cmd with
  | nil => intro rest; simp [readBulks]
  | cons a cmd ih =>
    intro rest
    simp only [List.map_cons, List.flatten_cons, List.length_cons, List.append_assoc]
    rw [readBulks, readBulk_encBulk]
    simp [ih]

/-- The serializer loop, restated as a flat concatenation of the
per-argument encodings after the header. -/
theorem RESPSerializer_structure (cmd : List (List Nat)) :
    RESPSerializer cmd
      = 42 :: natToDec cmd.length ++ [13, 10] ++ (cmd.map encBulk).flatten := by
  unfold RESPSerializer
  have general : ∀ (l : List (List Nat)) (init : List Nat),
      l.foldl (fun s arg =>
          s ++ (36 :: natToDec arg.length ++ [13, 10]) ++ arg ++ [13, 10]) init
        = init ++ (l.map encBulk).flatten := by
    intro l
    induction l with
    | nil => intro init; simp
    | cons a l ih =>
      intro init
      simp only [List.foldl_cons, List.map_cons, List.flatten_cons, ih, encBulk]
      simp
  rw [general]

theorem parseRESPRequest_RESPSerializer (cmd : List (List Nat)) :
    parseRESPRequest (RESPSerializer cmd) = some cmd := by
  rw [RESPSerializer_structure]
  have harr : (42 : Nat) :: natToDec cmd.length ++ [13, 10] ++ (cmd.map encBulk).flatten
      = 42 :: (natToDec cmd.length ++ 13 :: 10 :: ((cmd.map encBulk).flatten ++ [])) := by
    simp
  rw [harr]
  have hb : readBulks cmd.length ((cmd.map encBulk).flatten) = some (cmd, []) := by
    simpa using readBulks_encBulk cmd []
  unfold parseRESPRequest
  simp [readNum_natToDec, hb, expectByte_cons]

/-- On a flat alternating member/score sequence the zset loop emits
`score, member` pairs in order. -/
theorem zsetLoop_pairs (ps : List (String × String)) :
    ∀ (i : Nat) (key : String), i % 2 = 0 →
      zsetLoop ((ps.map fun p => [p.1, p.2]).flatten) i key
        = (ps.map fun p => [p.2, p.1]).flatten := by
  induction ps with
  | nil => intro i key h; simp [zsetLoop]
  | cons p ps ih =>
    intro i key h
    have h1 : ¬ (i + 1) % 2 = 0 := by omega
    have h2 : (i + 2) % 2 = 0 := by omega
    simp only [List.map_cons, List.flatten_cons, List.cons_append, zsetLoop,
      if_pos h, if_neg h1, List.nil_append, List.append_eq]
    rw [ih (i + 1 + 1) p.1 (by omega)]

/-! ## Claim C3 and C4 theorems -/

/-- C3: the wire-protocol serializer produces exactly
`*<argc>\r\n` followed, for each argument in order, by
`$<byte-length>\r\n<argument bytes>\r\n` (over raw bytes, so the
length prefix is the raw byte count even for multi-byte arguments),
and parsing that output back as a length-prefixed array reconstructs
the identical sequence of strings. -/
theorem C3_resp_serializer_roundtrip (cmd : List (List Nat)) (_hne : cmd ≠ []) :
    RESPSerializer cmd
      = 42 :: natToDec cmd.length ++ [13, 10]
          ++ (cmd.map (fun arg =>
                36 :: natToDec arg.length ++ [13, 10] ++ arg ++ [13, 10])).flatten
    ∧ parseRESPRequest (RESPSerializer cmd) = some cmd := by
  refine ⟨?_, parseRESPRequest_RESPSerializer cmd⟩
  rw [RESPSerializer_structure]
  rfl

/-- Witness for C3 at the command `SET k é` (the last argument is the
two-byte UTF-8 encoding of a non-ASCII character, so its length
prefix 2 is a byte count, not a character count). -/
theorem C3_resp_serializer_roundtrip_witness :
    parseRESPRequest (RESPSerializer [[83, 69, 84], [107], [195, 169]])
      = some [[83, 69, 84], [107], [195, 169]] :=
  (C3_resp_serializer_roundtrip [[83, 69, 84], [107], [195, 169]] (by decide)).2

/-- C4: for every flat alternating sequence of members and scores, the
sorted-set builder returns `ZADD key s1 m1 s2 m2 ...`; in particular
`["a", "1", "b", "2"]` gives `ZADD key 1 a 2 b`. -/
theorem C4_zset_pairing :
    (∀ (k : String) (ps : List (String × String)),
        zsetToRedisCmd k ((ps.map fun p => [p.1, p.2]).flatten)
          = "ZADD" :: k :: (ps.map fun p => [p.2, p.1]).flatten)
    ∧ zsetToRedisCmd "key" ["a", "1", "b", "2"]
        = ["ZADD", "key", "1", "a", "2", "b"] := by
  constructor
  · intro k ps
    unfold zsetToRedisCmd
    rw [zsetLoop_pairs ps 0 "" rfl]
  · decide

/-! ## Keyspace parsing (`parseKeyspaceInfo`, lines 167-192) -/

/-- Go `unicode.IsSpace` on the characters a keyspace report can
contain (ASCII whitespace plus NEL and NBSP). -/
def goIsSpace (c : Char) : Bool :=
  c = ' ' || c = '\t' || c = '\n' || c = '\x0b' || c = '\x0c' || c = '\r'
    || c = '\x85' || c = '\xa0'

/-- `strings.TrimSpace` (line 173). -/
def trimSpace (l : List Char) : List Char :=
  ((l.dropWhile goIsSpace).reverse.dropWhile goIsSpace).reverse

/-- `strings.IndexAny(line, ":")` (line 179): position of the first
colon; `none` embeds the -1 returned when there is no colon. -/
def indexOfColon : List Char → Option Nat
  | [] => none
  | c :: rest => if c = ':' then some 0 else (indexOfColon rest).map (· + 1)

/-- The error outcomes of the keyspace parser: the two failure kinds
of `strconv.ParseUint` (line 180), and the explicit range check
`dbIndex > 16` (lines 184-186). -/
inductive KeyspaceErr where
  | errSyntax
  | errRange
  | errDBRange
deriving DecidableEq

/-- `strconv.ParseUint(s, 10, 8)` (line 180): a non-empty all-digit
token whose value fits 8 bits; otherwise a syntax or range error. -/
def parseUint8 (s : List Char) : Except KeyspaceErr Nat :=
  if s.isEmpty then .error .errSyntax
  else if s.all Char.isDigit then
    let n := s.foldl (fun acc c => acc * 10 + (c.toNat - 48)) 0
    if 255 < n then .error .errRange else .ok n
  else .error .errSyntax

/-- The scanner loop of `parseKeyspaceInfo` (lines 172-189), over the
scanned lines.  The result `none` embeds the runtime fault of the Go
slice expression `line[2:strings.IndexAny(line, ":")]` on a line that
starts with "db" but has no colon (the index is then -1 and slicing
faults); every other path returns a value or an error. -/
def parseLines : List (List Char) → Option (Except KeyspaceErr (List Nat))
  | [] => some (.ok [])
  | rawLine :: rest =>
    let line := trimSpace rawLine
    if line.take 2 = ['d', 'b'] then
      match indexOfColon line with
      | none => none
      | some idx =>
        match parseUint8 ((line.take idx).drop 2) with
        | .error e => some (.error e)
        | .ok dbIndex =>
          if 16 < dbIndex then some (.error .errDBRange)
          else
            match parseLines rest with
            | some (.ok dbs) => some (.ok (dbIndex :: dbs))
            | other => other
    else parseLines rest

/-- Splitting the report into lines at newline characters (the
`bufio.Scanner` of line 170; the scanner also strips a final carriage
return, which `trimSpace` subsumes). -/
def splitOnNL : List Char → List (List Char)
  | [] => [[]]
  | c :: rest =>
    if c = '\n' then [] :: splitOnNL rest
    else
      match splitOnNL rest with
      | line :: more => (c :: line) :: more
      | [] => [[c]]

/-- `parseKeyspaceInfo` (line 167). -/
def parseKeyspaceInfo (s : String) : Option (Except KeyspaceErr (List Nat)) :=
  parseLines (splitOnNL s.toList)

/-- Decimal value of a digit string (spec side). -/
def charsVal (s : List Char) : Nat :=
  s.foldl (fun acc c => acc * 10 + (c.toNat - 48)) 0

/-- A report line is well formed when, after trimming, it either does
not start with "db" or reads `db<digits>:` with a non-empty digit run
of value at most 16. -/
def goodLine (l : List Char) : Bool :=
  let t := trimSpace l
  if t.take 2 = ['d', 'b'] then
    let ds := (t.drop 2).takeWhile Char.isDigit
    !ds.isEmpty && decide (((t.drop 2).dropWhile Char.isDigit).take 1 = [':'])
      && decide (charsVal ds ≤ 16)
  else true

/-- The database index advertised by a well-formed `db`-prefixed
line. -/
def goodIdx (l : List Char) : Option Nat :=
  let t := trimSpace l
  if t.take 2 = ['d', 'b'] then
    some (charsVal ((t.drop 2).takeWhile Char.isDigit))
  else none

/-- A line is fault-free for the scanner loop if, after trimming, it
either does not start with "db" or contains a colon. -/
def lineSafe (l : List Char) : Bool :=
  let t := trimSpace l
  !(decide (t.take 2 = ['d', 'b'])) || (indexOfColon t).isSome

theorem indexOfColon_digits (ds : List Char) (r : List Char)
    (h : ∀ c ∈ ds, Char.isDigit c = true) :
    indexOfColon (ds ++ ':' :: r) = some ds.length := by
  induction ds with
  | nil => simp [indexOfColon]
  | cons c ds ih =>
    have hc : Char.isDigit c = true := h c (by simp)
    have hne : ¬ c = ':' := by
      intro hEq
      rw [hEq] at hc
      exact absurd hc (by decide)
    simp [indexOfColon, hne, ih (fun x hx => h x (by simp [hx]))]

theorem indexOfColon_db (ds r : List Char) (h : ∀ c ∈ ds, Char.isDigit c = true) :
    indexOfColon ('d' :: 'b' :: (ds ++ ':' :: r)) = some (ds.length + 1 + 1) := by
  have hd : ¬ ('d' = ':') := by decide
  have hb : ¬ ('b' = ':') := by decide
  simp [indexOfColon, hd, hb, indexOfColon_digits ds r h]

theorem parseUint8_digits (ds : List Char) (hne : ds.isEmpty = false)
    (h : ds.all Char.isDigit = true) (hle : charsVal ds ≤ 16) :
    parseUint8 ds = .ok (charsVal ds) := by
  unfold parseUint8
  rw [hne, h]
  have h255 : ¬ 255 < ds.foldl (fun acc c => acc * 10 + (c.toNat - 48)) 0 := by
    unfold charsVal at hle
    omega
  simp only [Bool.false_eq_true, if_false, if_true, if_neg h255]
  rfl

/-- `takeWhile`/`dropWhile` split around a block of elements
satisfying `p`, followed by one that does not. -/
theorem takeWhile_stops {α : Type} (p : α → Bool) (ds : List α) (x : α)
    (r : List α) (h : ∀ c ∈ ds, p c = true) (hx : p x = false) :
    (ds ++ x :: r).takeWhile p = ds ∧ (ds ++ x :: r).dropWhile p = x :: r := by
  induction ds with
  | nil => simp [List.takeWhile, List.dropWhile, hx]
  | cons d ds ih =>
    have hd : p d = true := h d (by simp)
    have := ih (fun c hc => h c (by simp [hc]))
    simp [List.takeWhile_cons, List.dropWhile_cons, hd, this.1, this.2]

/-- A well-formed `db`-prefixed line decomposes as
`db<digits>:<rest>`. -/
theorem goodLine_decomp (l : List Char) (hl : goodLine l = true)
    (hdb : (trimSpace l).take 2 = ['d', 'b']) :
    ∃ ds rr, ds.isEmpty = false ∧ (∀ c ∈ ds, Char.isDigit c = true)
      ∧ charsVal ds ≤ 16 ∧ trimSpace l = 'd' :: 'b' :: (ds ++ ':' :: rr) := by
  unfold goodLine at hl
  rw [if_pos hdb] at hl
  simp only [Bool.and_eq_true, Bool.not_eq_eq_eq_not, Bool.not_true,
    decide_eq_true_eq] at hl
  obtain ⟨⟨hne, hcolon⟩, hle⟩ := hl
  refine ⟨((trimSpace l).drop 2).takeWhile Char.isDigit, ?_⟩
  obtain ⟨rr, hrr⟩ : ∃ rr, ((trimSpace l).drop 2).dropWhile Char.isDigit = ':' :: rr := by
    cases hdw : ((trimSpace l).drop 2).dropWhile Char.isDigit with
    | nil => rw [hdw] at hcolon; simp at hcolon
    | cons r0 rr2 =>
      rw [hdw] at hcolon
      simp at hcolon
      exact ⟨rr2, by rw [hcolon]⟩
  refine ⟨rr, by simpa using hne, fun c hc => List.mem_takeWhile_imp hc, hle, ?_⟩
  have hpost : (trimSpace l).drop 2
      = ((trimSpace l).drop 2).takeWhile Char.isDigit ++ ':' :: rr := by
    rw [← hrr]
    exact (List.takeWhile_append_dropWhile Char.isDigit ((trimSpace l).drop 2)).symm
  have h2 : (trimSpace l).take 2 ++ (trimSpace l).drop 2 = trimSpace l :=
    List.take_append_drop 2 (trimSpace l)
  rw [hdb] at h2
  conv_lhs => rw [← h2, hpost]
  rfl

/-- On well-formed report lines the scanner loop returns exactly the
advertised database indices, in order. -/
theorem parseLines_good (ls : List (List Char)) (h : ∀ l ∈ ls, goodLine l = true) :
    parseLines ls = some (.ok (ls.filterMap goodIdx)) := by
  induction ls with
  | nil => simp [parseLines]
  | cons l ls ih =>
    have hl := h l (by simp)
    have hrest := ih (fun x hx => h x (by simp [hx]))
    by_cases hdb : (trimSpace l).take 2 = ['d', 'b']
    · obtain ⟨ds, rr, hne, hds, hle, ht⟩ := goodLine_decomp l hl hdb
      have hidx := indexOfColon_db ds rr hds
      have htok : (('d' :: 'b' :: (ds ++ ':' :: rr)).take (ds.length + 1 + 1)).drop 2
          = ds := by
        rw [List.take_succ_cons, List.take_succ_cons, List.take_left]
        rfl
      have hParse : parseUint8 ds = .ok (charsVal ds) :=
        parseUint8_digits ds hne (List.all_eq_true.mpr hds) hle
      have h16 : ¬ 16 < charsVal ds := by omega
      have hgoodIdx : goodIdx l = some (charsVal ds) := by
        unfold goodIdx
        rw [ht]
        have hdb2 : ('d' :: 'b' :: (ds ++ ':' :: rr)).take 2 = ['d', 'b'] := rfl
        rw [if_pos hdb2]
        have htw : (('d' :: 'b' :: (ds ++ ':' :: rr)).drop 2).takeWhile Char.isDigit
            = ds := by
          show (ds ++ ':' :: rr).takeWhile Char.isDigit = ds
          exact (takeWhile_stops Char.isDigit ds ':' rr hds (by decide)).1
        rw [htw]
      simp only [parseLines]
      rw [ht]
      simp [hidx, htok, hParse, h16, hrest, hgoodIdx, List.filterMap_cons]
    · simp only [parseLines]
      rw [if_neg hdb, hrest]
      have hnone : goodIdx l = none := by unfold goodIdx; rw [if_neg hdb]
      simp [hnone]

/-- The scanner loop never faults when every trimmed `db`-prefixed
line contains a colon. -/
theorem parseLines_isSome (ls : List (List Char)) (h : ∀ l ∈ ls, lineSafe l = true) :
    (parseLines ls).isSome = true := by
  induction ls with
  | nil => simp [parseLines]
  | cons l ls ih =>
    have hl := h l (by simp)
    have hrest := ih (fun x hx => h x (by simp [hx]))
    simp only [parseLines]
    by_cases hdb : (trimSpace l).take 2 = ['d', 'b']
    · rw [if_pos hdb]
      unfold lineSafe at hl
      simp [hdb] at hl
      obtain ⟨idx, hidx⟩ := Option.isSome_iff_exists.mp hl
      rw [hidx]
      cases hp : parseUint8 (((trimSpace l).take idx).drop 2) with
      | error e => simp [hp]
      | ok dbIndex =>
        by_cases h16 : 16 < dbIndex
        · simp [hp, h16]
        · cases hr : parseLines ls with
          | none => rw [hr] at hrest; simp at hrest
          | some res => cases res with
            | ok dbs => simp [hp, h16, hr]
            | error e => simp [hp, h16, hr]
    · rw [if_neg hdb]
      exact hrest

/-! ## Claim C5 and C10 theorems -/

/-- C5: the keyspace parser returns exactly the database indices of
well-formed `db<N>:` lines; the two-line example yields `[0, 5]`; a
`db17:` line yields the range error of the explicit `> 16` check; a
`dbx:` line yields a syntax (parse) error. -/
theorem C5_keyspace_parsing :
    (∀ ls : List (List Char), (∀ l ∈ ls, goodLine l = true) →
        parseLines ls = some (.ok (ls.filterMap goodIdx)))
    ∧ parseKeyspaceInfo "db0:keys=3,expires=0,avg_ttl=0\ndb5:keys=1,expires=0,avg_ttl=0\n"
        = some (.ok [0, 5])
    ∧ parseKeyspaceInfo "db17:keys=1,expires=0,avg_ttl=0\n" = some (.error .errDBRange)
    ∧ parseKeyspaceInfo "dbx:keys=1,expires=0,avg_ttl=0\n" = some (.error .errSyntax) :=
  ⟨parseLines_good, by rfl, by rfl, by rfl⟩

/-- Witness for C5 on a concrete well-formed line. -/
theorem C5_keyspace_parsing_witness :
    parseLines [("db3:keys=2,expires=0").toList]
      = some (.ok ([("db3:keys=2,expires=0").toList].filterMap goodIdx)) :=
  C5_keyspace_parsing.1 _ (by decide)

/-- C10 counterexample: on a report line that begins with `db` but has
no colon, the parser hits the runtime fault of
`line[2:strings.IndexAny(line, ":")]` (modelled as `none`), so it is
not total. -/
theorem C10_counterexample :
    parseKeyspaceInfo "dbkeys=1,expires=0" = none := by rfl

/-- C10 amended: the parser is total on every input whose trimmed
`db`-prefixed lines each contain a colon; on such inputs it returns a
list of indices or an error. -/
theorem C10_parser_total_on_colon_lines (s : String)
    (h : ∀ l ∈ splitOnNL s.toList, lineSafe l = true) :
    (parseKeyspaceInfo s).isSome = true :=
  parseLines_isSome _ h

/-- Witness for the amended C10 on a concrete two-line input. -/
theorem C10_parser_total_on_colon_lines_witness :
    (parseKeyspaceInfo "db1:keys=9\nsomething else").isSome = true :=
  C10_parser_total_on_colon_lines "db1:keys=9\nsomething else" (by decide)

/-! ## The key dump loop (`dumpKeys`, lines 79-149)

The store is embedded as a map from key to the result of each query
the loop can issue (`TYPE`, the per-type value read, `TTL`); errors of
the underlying client are `transport` errors carrying a message, and
the `fmt.Errorf` of the default switch arm (line 131) is the
`unrecognizedType` error naming the key and the reported type. -/

/-- An error surfaced while dumping one key. -/
inductive QErr where
  | transport (msg : String)
  | unrecognizedType (key ty : String)
deriving DecidableEq

/-- The responses the store gives for one key. -/
structure KeyInfo where
  typeRes : Except String String
  getRes : Except String String
  lrangeRes : Except String (List String)
  smembersRes : Except String (List String)
  hgetallRes : Except String (List (String × String))
  zrangeRes : Except String (List String)
  ttlRes : Except String Int

/-- A store: every key has fixed query responses. -/
def Store : Type := String → KeyInfo

/-- One iteration of the `dumpKeys` loop (lines 84-146) for `key`,
given the current value of the mutable `redisCmd` variable.  Returns
the lines printed to the sink for this key, and either the error the
iteration returns with, or the value `redisCmd` holds afterwards.
Fidelity notes, all mirroring the source:
- the `"none"` arm (line 128) leaves `redisCmd` unchanged, and the
  `logger.Print(serializer(redisCmd))` of line 134 still runs, so the
  stale command is re-emitted;
- an error returned before line 134 emits nothing for this key, a TTL
  query error (line 138) emits only the command line;
- when TTL > 0, line 142 overwrites `redisCmd` with the `EXPIREAT`
  command, which is what a following `"none"` key would re-emit. -/
def dumpKey (st : Store) (ser : List String → String) (now : Int)
    (key : String) (redisCmd : List String) :
    List String × Except QErr (List String) :=
  match (st key).typeRes with
  | .error m => ([], .error (.transport m))
  | .ok keyType =>
    let cmdRes : Except QErr (List String) :=
      match keyType with
      | "string" =>
        match (st key).getRes with
        | .error m => .error (.transport m)
        | .ok v => .ok (stringToRedisCmd key v)
      | "list" =>
        match (st key).lrangeRes with
        | .error m => .error (.transport m)
        | .ok v => .ok (listToRedisCmd key v)
      | "set" =>
        match (st key).smembersRes with
        | .error m => .error (.transport m)
        | .ok v => .ok (setToRedisCmd key v)
      | "hash" =>
        match (st key).hgetallRes with
        | .error m => .error (.transport m)
        | .ok v => .ok (hashToRedisCmd key v)
      | "zset" =>
        match (st key).zrangeRes with
        | .error m => .error (.transport m)
        | .ok v => .ok (zsetToRedisCmd key v)
      | "none" => .ok redisCmd
      | other => .error (.unrecognizedType key other)
    match cmdRes with
    | .error e => ([], .error e)
    | .ok cmd =>
      match (st key).ttlRes with
      | .error m => ([ser cmd], .error (.transport m))
      | .ok ttl =>
        if 0 < ttl then
          ([ser cmd, ser (ttlToRedisCmd now key ttl)], .ok (ttlToRedisCmd now key ttl))
        else ([ser cmd], .ok cmd)

/-- The `dumpKeys` loop over a batch, threading the `redisCmd`
variable; returns the sink lines and the error `dumpKeys` returns
(`none` embeds the `nil` return of line 148). -/
def dumpKeysGo (st : Store) (ser : List String → String) (now : Int) :
    List String → List String → List String × Option QErr
  | [], _ => ([], none)
  | key :: rest, redisCmd =>
    match dumpKey st ser now key redisCmd with
    | (lines, .error e) => (lines, some e)
    | (lines, .ok cmd) =>
      let r := dumpKeysGo st ser now rest cmd
      (lines ++ r.1, r.2)

/-- `dumpKeys` (line 79): `redisCmd` starts as the nil slice. -/
def dumpKeys (st : Store) (ser : List String → String) (now : Int)
    (keys : List String) : List String × Option QErr :=
  dumpKeysGo st ser now keys []

/-- `dumpKeysWorker` (line 151): runs `dumpKeys` on each batch in
turn, forwarding each batch error to the aggregator and continuing
with the next batch.  Returns the sink lines and the forwarded
errors. -/
def dumpKeysWorker (st : Store) (ser : List String → String) (now : Int) :
    List (List String) → List String × List QErr
  | [] => ([], [])
  | b :: bs =>
    let r := dumpKeys st ser now b
    let rest := dumpKeysWorker st ser now bs
    (r.1 ++ rest.1, r.2.toList ++ rest.2)

/-- Responses for queries the concrete examples never issue. -/
def unqueried : KeyInfo :=
  { typeRes := .error "unqueried", getRes := .error "unqueried",
    lrangeRes := .error "unqueried", smembersRes := .error "unqueried",
    hgetallRes := .error "unqueried", zrangeRes := .error "unqueried",
    ttlRes := .error "unqueried" }

/-- A store with a string key `k1` (value `v1`, no TTL) and a key `k2`
whose type query reports `none` (vanished; its TTL query reports -2,
as for a missing key). -/
def noneKeyStore : Store := fun k =>
  if k = "k1" then
    { unqueried with typeRes := .ok "string", getRes := .ok "v1", ttlRes := .ok (-1) }
  else if k = "k2" then
    { unqueried with typeRes := .ok "none", ttlRes := .ok (-2) }
  else unqueried

/-- A store with a key `s` of the unknown type `stream` and a healthy
string key `t`. -/
def streamKeyStore : Store := fun k =>
  if k = "s" then { unqueried with typeRes := .ok "stream" }
  else if k = "t" then
    { unqueried with typeRes := .ok "string", getRes := .ok "v", ttlRes := .ok (-1) }
  else unqueried

/-! ## Claim C1 and C2 theorems -/

/-- C1, evaluated at the failing input.  For the unknown type
`stream` the claim holds: an `unrecognizedType` error naming the key
and the reported type, and no line emitted for that key.  For a key of
type `none`, however, the switch arm of line 128 is empty, so the sink
write of line 134 still runs with the stale `redisCmd` buffer: dumping
`[k1, k2]` emits the `SET k1 v1` line twice, and dumping `[k2]` alone
emits the serialization of the nil command — while the spec says a
`none` key emits nothing and reports no error. -/
theorem C1_none_and_unknown_type_eval :
    dumpKeys streamKeyStore RedisCmdSerializer 0 ["s"]
      = ([], some (.unrecognizedType "s" "stream"))
    ∧ dumpKeys noneKeyStore RedisCmdSerializer 0 ["k1", "k2"]
      = (["SET k1 v1", "SET k1 v1"], none)
    ∧ dumpKeys noneKeyStore RedisCmdSerializer 0 ["k2"] = ([""], none) :=
  ⟨by rfl, by rfl, by rfl⟩

/-- C2 counterexample: in the batch `[s, t]` the first key fails with
an unrecognized-type error and `dumpKeys` returns immediately: the
remaining key `t` of the same batch — a healthy string key which in
isolation produces `SET t v` — is skipped, and no line for it is
emitted.  The claim that the remaining keys of the batch are still
processed is therefore false. -/
theorem C2_counterexample :
    dumpKeys streamKeyStore RedisCmdSerializer 0 ["s", "t"]
      = ([], some (.unrecognizedType "s" "stream"))
    ∧ dumpKeys streamKeyStore RedisCmdSerializer 0 ["t"] = (["SET t v"], none) :=
  ⟨by rfl, by rfl⟩

/-- C2 amended: a failure on one key aborts the remainder of that
key's batch — the loop returns at the failing key with whatever had
been emitted up to it, regardless of the keys that follow — while the
worker forwards the batch error to the aggregator and continues with
the subsequent batches unaffected. -/
theorem C2_batch_abort_worker_continues :
    (∀ (st : Store) (ser : List String → String) (now : Int)
        (rc : List String) (k : String) (rest : List String)
        (l : List String) (e : QErr),
        dumpKeysGo st ser now [k] rc = (l, some e) →
        dumpKeysGo st ser now (k :: rest) rc = (l, some e))
    ∧ (∀ (st : Store) (ser : List String → String) (now : Int)
        (b : List String) (bs : List (List String)),
        dumpKeysWorker st ser now (b :: bs)
          = ((dumpKeys st ser now b).1 ++ (dumpKeysWorker st ser now bs).1,
             (dumpKeys st ser now b).2.toList ++ (dumpKeysWorker st ser now bs).2)) := by
  constructor
  · intro st ser now rc k rest l e h
    simp only [dumpKeysGo] at h ⊢
    cases hk : dumpKey st ser now k rc with
    | mk lines res =>
      rw [hk] at h
      cases res with
      | error e2 =>
        simp at h
        simp [h.1, h.2]
      | ok cmd => simp at h
  · intro st ser now b bs
    simp only [dumpKeysWorker]

/-- Witness for the amended C2: the batch `[s, t]` aborts at `s` with
the unrecognized-type error. -/
theorem C2_batch_abort_worker_continues_witness :
    dumpKeysGo streamKeyStore RedisCmdSerializer 0 ["s", "t"] []
      = ([], some (.unrecognizedType "s" "stream")) :=
  C2_batch_abort_worker_continues.1 streamKeyStore RedisCmdSerializer 0 [] "s" ["t"]
    [] (.unrecognizedType "s" "stream") (by rfl)

/-! ## Batch dispatch and progress (`DumpDB`, lines 226-276) -/

/-- The fixed batch size of line 260. -/
def batchSize : Nat := 100

/-- `ProgressNotification` (line 163). -/
structure ProgressNotification where
  Done : Nat
  Total : Nat
deriving DecidableEq

/-- The batch submission loop of lines 261-267: from index `i`, the
slice `keys[i:min(i+batchSize, len(keys))]` followed by the remaining
batches.  (The Go loop condition also stops once the aggregator has
counted an error; the embedding models the complete dispatch of an
uninterrupted run — the stop is a data race the spec itself documents
as best-effort.) -/
def batchLoop (keys : List String) (i : Nat) : List (List String) :=
  if _h : i < keys.length then
    (keys.drop i).take (goMin (i + batchSize) keys.length - i)
      :: batchLoop keys (i + batchSize)
  else []
termination_by keys.length - i
decreasing_by simp [batchSize]; omega

/-- The progress notifications sent at line 265: one per submitted
batch, with `Done = min(i+batchSize, len(keys))` and
`Total = len(keys)`. -/
def progressLoop (total i : Nat) : List ProgressNotification :=
  if _h : i < total then
    ⟨goMin (i + batchSize) total, total⟩ :: progressLoop total (i + batchSize)
  else []
termination_by total - i
decreasing_by simp [batchSize]; omega

theorem batchLoop_cons (keys : List String) (i : Nat) (h : i < keys.length) :
    batchLoop keys i
      = (keys.drop i).take (goMin (i + batchSize) keys.length - i)
        :: batchLoop keys (i + batchSize) := by
  rw [batchLoop, dif_pos h]

theorem batchLoop_nil (keys : List String) (i : Nat) (h : ¬ i < keys.length) :
    batchLoop keys i = [] := by
  rw [batchLoop, dif_neg h]

theorem batchLoop_flatten (keys : List String) (i : Nat) :
    (batchLoop keys i).flatten = keys.drop i := by
  induction i using batchLoop.induct keys with
  | case1 i h ih =>
    rw [batchLoop_cons keys i h]
    simp only [List.flatten_cons, ih]
    have key : ∀ n, keys.drop (i + batchSize) = keys.drop (i + n) →
        (keys.drop i).take n ++ keys.drop (i + batchSize) = keys.drop i := by
      intro n hn
      rw [hn]
      exact List.drop_take_append_drop keys i n
    apply key
    by_cases hle : i + batchSize ≤ keys.length
    · rw [goMin, if_pos hle]
      congr 1
      omega
    · rw [goMin, if_neg hle]
      rw [List.drop_eq_nil_of_le (by omega), List.drop_eq_nil_of_le (by omega)]
  | case2 i h =>
    rw [batchLoop_nil keys i h]
    simp
    omega

theorem batchLoop_sizes (keys : List String) (i : Nat) :
    ∀ b ∈ batchLoop keys i, b.length ≤ batchSize := by
  induction i using batchLoop.induct keys with
  | case1 i h ih =>
    rw [batchLoop_cons keys i h]
    intro b hb
    rcases List.mem_cons.mp hb with hb | hb
    · subst hb
      have h1 : ((keys.drop i).take (goMin (i + batchSize) keys.length - i)).length
          ≤ goMin (i + batchSize) keys.length - i := by
        simp [List.length_take]
      have h2 : goMin (i + batchSize) keys.length - i ≤ batchSize := by
        rw [goMin]
        split <;> omega
      omega
    · exact ih b hb
  | case2 i h =>
    rw [batchLoop_nil keys i h]
    intro b hb
    simp at hb

theorem batchLoop_map_length_250 (keys : List String) (h : keys.length = 250) :
    (batchLoop keys 0).map List.length = [100, 100, 50] := by
  have e1 := batchLoop_cons keys 0 (by omega)
  have e2 := batchLoop_cons keys 100 (by omega)
  have e3 := batchLoop_cons keys 200 (by omega)
  have e4 := batchLoop_nil keys 300 (by omega)
  norm_num [batchSize, h, goMin] at e1 e2 e3 e4
  rw [e1, e2, e3, e4]
  simp [List.length_take, List.length_drop, h]

/-- C6: the dispatcher partitions the key list into contiguous batches
of at most 100 keys, covering every key exactly once in the original
order; 250 keys yield exactly the batch sizes 100, 100, 50. -/
theorem C6_batching (keys : List String) :
    (batchLoop keys 0).flatten = keys
    ∧ (∀ b ∈ batchLoop keys 0, b.length ≤ batchSize)
    ∧ (keys.length = 250 → (batchLoop keys 0).map List.length = [100, 100, 50]) := by
  refine ⟨?_, batchLoop_sizes keys 0, fun h => batchLoop_map_length_250 keys h⟩
  simpa using batchLoop_flatten keys 0

/-- Witness for C6 on 250 concrete keys. -/
theorem C6_batching_witness :
    (batchLoop ((List.range 250).map toString) 0).map List.length
      = [100, 100, 50] :=
  (C6_batching _).2.2 (by simp)

theorem progressLoop_cons (total i : Nat) (h : i < total) :
    progressLoop total i
      = ⟨goMin (i + batchSize) total, total⟩ :: progressLoop total (i + batchSize) := by
  rw [progressLoop, dif_pos h]

theorem progressLoop_nil (total i : Nat) (h : ¬ i < total) :
    progressLoop total i = [] := by
  rw [progressLoop, dif_neg h]

theorem progressLoop_fixed_total (total i : Nat) :
    ∀ p ∈ progressLoop total i, p.Total = total := by
  induction i using progressLoop.induct total with
  | case1 i h ih =>
    rw [progressLoop_cons total i h]
    intro p hp
    rcases List.mem_cons.mp hp with hp | hp
    · rw [hp]
    · exact ih p hp
  | case2 i h =>
    rw [progressLoop_nil total i h]
    intro p hp
    simp at hp

theorem progressLoop_chain (total i : Nat) :
    List.Chain' (fun a b => a.Done ≤ b.Done) (progressLoop total i) := by
  induction i using progressLoop.induct total with
  | case1 i h ih =>
    rw [progressLoop_cons total i h]
    rw [List.chain'_cons']
    refine ⟨?_, ih⟩
    intro b hb
    by_cases h2 : i + batchSize < total
    · rw [progressLoop_cons total _ h2] at hb
      simp only [List.head?_cons, Option.mem_def, Option.some.injEq] at hb
      rw [← hb]
      show goMin (i + batchSize) total ≤ goMin (i + batchSize + batchSize) total
      rw [goMin, goMin]
      split <;> split <;> omega
    · rw [progressLoop_nil total _ h2] at hb
      simp at hb
  | case2 i h =>
    rw [progressLoop_nil total i h]
    simp

theorem getLastD_irrel {α : Type} (l : List α) (h : l ≠ []) (d1 d2 : α) :
    l.getLastD d1 = l.getLastD d2 := by
  cases l with
  | nil => exact absurd rfl h
  | cons a l => rfl

theorem progressLoop_last (total i : Nat) (h : i < total) :
    ((progressLoop total i).getLastD ⟨0, 0⟩).Done = total := by
  induction i using progressLoop.induct total with
  | case1 i hi ih =>
    rw [progressLoop_cons total i hi]
    by_cases h2 : i + batchSize < total
    · have hne : progressLoop total (i + batchSize) ≠ [] := by
        rw [progressLoop_cons total _ h2]
        simp
      rw [List.getLastD_cons,
        getLastD_irrel _ hne ⟨goMin (i + batchSize) total, total⟩ ⟨0, 0⟩]
      exact ih h2
    · rw [progressLoop_nil total _ h2]
      show (goMin (i + batchSize) total) = total
      rw [goMin]
      split <;> omega
  | case2 i hi => exact absurd h hi

/-- C7: across the progress notifications emitted during one database
dump (one per submitted batch), the done field is non-decreasing, the
total field is fixed at the key count, and the last notification's
done value equals total. -/
theorem C7_progress_monotone (total : Nat) :
    List.Chain' (fun a b => a.Done ≤ b.Done) (progressLoop total 0)
    ∧ (∀ p ∈ progressLoop total 0, p.Total = total)
    ∧ (0 < total → ((progressLoop total 0).getLastD ⟨0, 0⟩).Done = total) :=
  ⟨progressLoop_chain total 0, progressLoop_fixed_total total 0,
    fun h => progressLoop_last total 0 h⟩

/-- Witness for C7: for a dump of 250 keys the final notification
reports done = total = 250. -/
theorem C7_progress_monotone_witness :
    ((progressLoop 250 0).getLastD ⟨0, 0⟩).Done = 250 :=
  (C7_progress_monotone 250).2.2 (by omega)

/-! ## DumpDB (lines 226-276) -/

/-- The setup interactions of one `DumpDB` call: pool creation
(line 238), the initial `SELECT` (line 244), the `KEYS *` enumeration
(line 250), and the per-key store behind the workers. -/
structure DBHandle where
  poolErr : Option String
  selectErr : Option String
  keysRes : Except String (List String)
  store : Store

/-- The observable outcome of a completed `DumpDB` call: the sink
lines, the progress notifications, and the per-key errors the
aggregator printed to the diagnostic stream (their count is the
`nErrors` variable of line 230, which is logged, never returned). -/
structure DumpOutcome where
  sink : List String
  progress : List ProgressNotification
  diagErrors : List QErr
deriving DecidableEq

/-- `DumpDB` (line 226).  Setup failures return immediately with that
error (lines 239-241, 244-246, 250-252); otherwise the `SELECT`
command is emitted (line 247), the keys are batched and dumped, and
the function returns `nil` (line 275) — the worker errors are only
collected into the outcome's diagnostic field.  (The worker handoff
via channels is embedded sequentially; as in `batchLoop`, the no-error
dispatch is modelled.) -/
def DumpDB (h : DBHandle) (db : Nat) (ser : List String → String) (now : Int) :
    Except String DumpOutcome :=
  match h.poolErr with
  | some e => .error e
  | none =>
    match h.selectErr with
    | some e => .error e
    | none =>
      match h.keysRes with
      | .error e => .error e
      | .ok keys =>
        let r := dumpKeysWorker h.store ser now (batchLoop keys 0)
        .ok ⟨ser ["SELECT", toString db] :: r.1, progressLoop keys.length 0, r.2⟩

/-! ## Claim C8 theorem -/

/-- C8: when pool creation, the initial select and the key enumeration
all succeed, `DumpDB` completes with an `ok` outcome whatever per-key
errors the workers hit — those are only collected in the diagnostic
field — while each structural failure is returned immediately as the
terminal result. -/
theorem C8_structural_vs_perkey_errors (h : DBHandle) (db : Nat)
    (ser : List String → String) (now : Int) :
    (∀ keys, h.poolErr = none → h.selectErr = none → h.keysRes = .ok keys →
        DumpDB h db ser now
          = .ok ⟨ser ["SELECT", toString db]
                   :: (dumpKeysWorker h.store ser now (batchLoop keys 0)).1,
                 progressLoop keys.length 0,
                 (dumpKeysWorker h.store ser now (batchLoop keys 0)).2⟩)
    ∧ (∀ e, h.poolErr = some e → DumpDB h db ser now = .error e)
    ∧ (∀ e, h.poolErr = none → h.selectErr = some e → DumpDB h db ser now = .error e)
    ∧ (∀ e, h.poolErr = none → h.selectErr = none → h.keysRes = .error e →
        DumpDB h db ser now = .error e) := by
  refine ⟨?_, ?_, ?_, ?_⟩
  · intro keys h1 h2 h3
    simp [DumpDB, h1, h2, h3]
  · intro e h1
    simp [DumpDB, h1]
  · intro e h1 h2
    simp [DumpDB, h1, h2]
  · intro e h1 h2 h3
    simp [DumpDB, h1, h2, h3]

/-- The handle of a healthy database whose only two keys are the
unknown-type key `s` and the string key `t`. -/
def streamDBHandle : DBHandle :=
  { poolErr := none, selectErr := none, keysRes := .ok ["s", "t"],
    store := streamKeyStore }

/-- Witness for C8: with setup succeeding, the dump of a database
holding a key of unrecognized type still returns `ok`; the
unrecognized-type error is only in the diagnostic field. -/
theorem C8_structural_vs_perkey_errors_witness :
    DumpDB streamDBHandle 0 RedisCmdSerializer 0
      = .ok ⟨RedisCmdSerializer ["SELECT", toString 0]
               :: (dumpKeysWorker streamDBHandle.store RedisCmdSerializer 0
                     (batchLoop ["s", "t"] 0)).1,
             progressLoop (["s", "t"] : List String).length 0,
             (dumpKeysWorker streamDBHandle.store RedisCmdSerializer 0
                (batchLoop ["s", "t"] 0)).2⟩ :=
  (C8_structural_vs_perkey_errors streamDBHandle 0 RedisCmdSerializer 0).1
    ["s", "t"] rfl rfl rfl

/-! ## Claim C9 theorems -/

/-- C9 counterexample: the TTL builder is not a function of the key
name and TTL integer alone — its Go body reads the wall clock
(`time.Now().Unix()`, line 23), embedded here as the extra `now`
argument — so two invocations with the same key and TTL taken at
different clock readings return different commands. -/
theorem C9_counterexample :
    ttlToRedisCmd 0 "k" 120 ≠ ttlToRedisCmd 1 "k" 120 := by decide

/-- C9 amended: every command builder is a pure function fully
determined by its arguments, where for the TTL builder the arguments
include the wall-clock reading taken at the query, and for the hash
builder the iteration order in which the store's field map is
visited: each builder's output has the closed form below. -/
theorem C9_builders_deterministic :
    (∀ k v, stringToRedisCmd k v = ["SET", k, v])
    ∧ (∀ k (vs : List String), listToRedisCmd k vs = "RPUSH" :: k :: vs)
    ∧ (∀ k (vs : List String), setToRedisCmd k vs = "SADD" :: k :: vs)
    ∧ (∀ k (ps : List (String × String)),
        hashToRedisCmd k ps = "HSET" :: k :: (ps.map fun p => [p.1, p.2]).flatten)
    ∧ (∀ k (ps : List (String × String)),
        zsetToRedisCmd k ((ps.map fun p => [p.1, p.2]).flatten)
          = "ZADD" :: k :: (ps.map fun p => [p.2, p.1]).flatten)
    ∧ (∀ (now : Int) k (v : Int),
        ttlToRedisCmd now k v = ["EXPIREAT", k, toString (now + v)]) := by
  refine ⟨fun k v => rfl, fun k vs => rfl, fun k vs => rfl, ?_, ?_, fun now k v => rfl⟩
  · intro k ps
    unfold hashToRedisCmd
    rw [foldl_append_join (fun p => [p.1, p.2]) ps ["HSET", k]]
    rfl
  · intro k ps
    unfold zsetToRedisCmd
    rw [zsetLoop_pairs ps 0 "" rfl]

end RedisDump
